import Mathlib

/-
Verification of the OTE training-tests helper engine
(ote_sdk/ote_sdk/algo_backends/test_helpers/training_tests_helper.py).

The embedding models Python values appearing in test-parameter records as
the inductive type Val, Python dicts with string keys as association lists
with dict-like lookup and in-place update, and the mutable single-slot
cache of OTETestHelper as an explicit state record threaded through each
operation.  CaseObject instances are opaque to the engine; they are
modelled by a construction counter: every successful construction yields
a fresh identifier, which makes the number of constructions and the
identity of returned objects observable.  The deepcopy calls of the source
are identities here because the embedding has value semantics.
-/

namespace OteHelper

/-- Python values stored in test-bunch dicts: strings, integers, None and
lists (the source treats list and tuple the same way in normalization). -/
inductive Val where
  | str (s : String)
  | int (n : Int)
  | vnone
  | list (xs : List Val)
deriving Repr

mutual

def Val.beq : Val → Val → Bool
  | .str a, .str b => a == b
  | .int a, .int b => a == b
  | .vnone, .vnone => true
  | .list a, .list b => Val.beqList a b
  | _, _ => false

def Val.beqList : List Val → List Val → Bool
  | [], [] => true
  | x :: xs, y :: ys => Val.beq x y && Val.beqList xs ys
  | _, _ => false

end

instance : BEq Val := ⟨Val.beq⟩

mutual

def Val.beq_iff : (a b : Val) → (Val.beq a b = true ↔ a = b)
  | .str x, .str y => by simp [Val.beq]
  | .str _, .int _ => by simp [Val.beq]
  | .str _, .vnone => by simp [Val.beq]
  | .str _, .list _ => by simp [Val.beq]
  | .int _, .str _ => by simp [Val.beq]
  | .int x, .int y => by simp [Val.beq]
  | .int _, .vnone => by simp [Val.beq]
  | .int _, .list _ => by simp [Val.beq]
  | .vnone, .str _ => by simp [Val.beq]
  | .vnone, .int _ => by simp [Val.beq]
  | .vnone, .vnone => by simp [Val.beq]
  | .vnone, .list _ => by simp [Val.beq]
  | .list _, .str _ => by simp [Val.beq]
  | .list _, .int _ => by simp [Val.beq]
  | .list _, .vnone => by simp [Val.beq]
  | .list xs, .list ys => by
      rw [show Val.beq (.list xs) (.list ys) = Val.beqList xs ys from rfl]
      rw [Val.beqList_iff xs ys]
      constructor
      · intro h; rw [h]
      · intro h; injection h

def Val.beqList_iff : (a b : List Val) → (Val.beqList a b = true ↔ a = b)
  | [], [] => by simp [Val.beqList]
  | [], _ :: _ => by simp [Val.beqList]
  | _ :: _, [] => by simp [Val.beqList]
  | x :: xs, y :: ys => by
      rw [show Val.beqList (x :: xs) (y :: ys) = (Val.beq x y && Val.beqList xs ys) from rfl]
      rw [Bool.and_eq_true, Val.beq_iff x y, Val.beqList_iff xs ys]
      constructor
      · intro h; rw [h.1, h.2]
      · intro h; injection h with h1 h2; exact ⟨h1, h2⟩

end

instance : LawfulBEq Val where
  eq_of_beq h := (Val.beq_iff _ _).mp h
  rfl := (Val.beq_iff _ _).mpr rfl

instance : DecidableEq Val :=
  fun a b => decidable_of_iff (Val.beq a b = true) (Val.beq_iff a b)

/-- A Python dict with string keys, as an association list.  Dicts built by
the engine never hold duplicate keys: lookup returns the first binding and
update rewrites the binding in place (Python dict assignment keeps the key
position) or appends a new one. -/
abbrev Dict := List (String × Val)

/-- Lookup, Option-valued: some v when the key is present (Python d[k] and
the KeyError case distinguished by the caller). -/
def dictGet (d : Dict) (k : String) : Option Val :=
  match d with
  | [] => none
  | (k1, v) :: rest => if k1 = k then some v else dictGet rest k

/-- Python d.get(k): None when the key is absent. -/
def pyGet (d : Dict) (k : String) : Val :=
  (dictGet d k).getD Val.vnone

/-- Python d[k] = v: rewrite the binding in place when present, else append. -/
def dictSet (d : Dict) (k : String) (v : Val) : Dict :=
  match d with
  | [] => [(k, v)]
  | (k1, v1) :: rest => if k1 = k then (k, v) :: rest else (k1, v1) :: dictSet rest k v

/-- Python dict equality: extensional comparison of the two key-value maps
(insertion order is irrelevant for ==). -/
def dictEqb (d1 d2 : Dict) : Bool :=
  d1.all (fun p => dictGet d1 p.1 == dictGet d2 p.1)
  && d2.all (fun p => dictGet d1 p.1 == dictGet d2 p.1)

/-- State of OTETestHelper._Cache, plus the construction counter that
instruments CaseObject identity.  The source initializes
_cache_parameters = an empty dict and _cached_value = None. -/
structure CacheState where
  cache_parameters : Dict
  cached_value : Option Nat
  next_id : Nat
deriving Repr, DecidableEq

/-- Fresh cache at engine construction: empty parameter dict, None value. -/
def CacheState.init : CacheState :=
  { cache_parameters := [], cached_value := none, next_id := 0 }

/-- _Cache.has_same_params: Python == between the stored parameter dict and
the proposed one. -/
def has_same_params (c : CacheState) (params : Dict) : Bool :=
  dictEqb c.cache_parameters params

/-- Dict comprehension of get_test_case line 292:
params_defining_cache = the projection of test_parameters onto the
configured keys, evaluated left to right; the first absent key raises
KeyError (returned as the error value). -/
def projectAux (test_parameters : Dict) (acc : Dict) : List String → Except String Dict
  | [] => .ok acc
  | k :: rest =>
    match dictGet test_parameters k with
    | none => .error k
    | some v => projectAux test_parameters (dictSet acc k v) rest

def projectParams (test_parameters : Dict) (keys : List String) : Except String Dict :=
  projectAux test_parameters [] keys

/-- Outcome of one get_test_case call: the returned value (self._cache.get(),
possibly None) with the post state, a KeyError raised while projecting, or
an exception raised by the CaseObject constructor.  Each constructor carries
the cache state after the call. -/
inductive GetCaseOutcome where
  | ok (case : Option Nat) (st : CacheState)
  | keyError (key : String) (st : CacheState)
  | ctorError (st : CacheState)
deriving Repr, DecidableEq

/-- OTETestHelper.get_test_case.  case_keys is the stored
test_parameters_defining_test_case_behavior list; ctor_ok tells whether the
CaseObject constructor invocation succeeds (false models a raising
constructor, which propagates before _cache.set runs: construct happens
strictly before store in the source). -/
def get_test_case (case_keys : List String) (ctor_ok : Bool)
    (st : CacheState) (test_parameters : Dict) : GetCaseOutcome :=
  match projectParams test_parameters case_keys with
  | .error k => .keyError k st
  | .ok params_defining_cache =>
    if ¬ has_same_params st params_defining_cache then
      if ctor_ok then
        let test_case := st.next_id
        let st1 : CacheState :=
          { cache_parameters := params_defining_cache,
            cached_value := some test_case,
            next_id := st.next_id + 1 }
        .ok st1.cached_value st1
      else
        .ctorError st
    else
      .ok st.cached_value st

/-- Run a sequence of get_test_case calls with an always-succeeding
constructor, collecting the returned values; an exception aborts the
remaining calls. -/
def runCalls (case_keys : List String) (st : CacheState) :
    List Dict → List (Option Nat) × CacheState
  | [] => ([], st)
  | tp :: rest =>
    match get_test_case case_keys true st tp with
    | .ok v st1 =>
      let tail := runCalls case_keys st1 rest
      (v :: tail.1, tail.2)
    | .keyError _ st1 => ([], st1)
    | .ctorError st1 => ([], st1)

/-- Modelled from the spec: the module training_tests_common (not present
under src/) exports DEFAULT_FIELD_VALUE_FOR_USING_IN_TEST, the
distinguished unset sentinel value compared against with Python == in
_fill_test_parameters_default_values; the spec describes it as a
distinguished value meaning the field is unset, so it is modelled as a
dedicated string constant distinct from None and from ordinary values. -/
def DEFAULT_FIELD_VALUE_FOR_USING_IN_TEST : Val :=
  .str "DEFAULT_FIELD_VALUE_FOR_USING_IN_TEST"

/-- OTETestHelper._fill_test_parameters_default_values: for each configured
default, when test_parameters.get(key) is None (absent key or a stored
None) or equals the unset sentinel, assign the default value. -/
def fill_test_parameters_default_values (defaults : List (String × Val))
    (test_parameters : Dict) : Dict :=
  defaults.foldl
    (fun tp kv =>
      let val := pyGet tp kv.1
      if val == Val.vnone || val == DEFAULT_FIELD_VALUE_FOR_USING_IN_TEST then
        dictSet tp kv.1 kv.2
      else
        tp)
    test_parameters

mutual

/-- Python str() on a Val, as used by the f-string of _generate_test_id:
a string is taken verbatim, an int prints in decimal, None prints as None,
a list prints as the bracketed comma-separated repr of its elements. -/
def pyStr : Val → String
  | .str s => s
  | .int n => toString n
  | .vnone => "None"
  | .list xs => "[" ++ String.intercalate ", " (pyReprList xs) ++ "]"

/-- Python repr() on a Val (string elements of printed lists are quoted;
escaping of quotes inside strings is not modelled). -/
def pyRepr : Val → String
  | .str s => "\x27" ++ s ++ "\x27"
  | .int n => toString n
  | .vnone => "None"
  | .list xs => "[" ++ String.intercalate ", " (pyReprList xs) ++ "]"

def pyReprList : List Val → List String
  | [] => []
  | x :: xs => pyRepr x :: pyReprList xs

end

/-- OTETestHelper._generate_test_id: join the strings short-value with
commas, iterating the ordered id-naming map; test_parameters[par_name]
raises KeyError (the error value) at the first absent key. -/
def id_parts (test_parameters : Dict) : List (String × String) → Except String (List String)
  | [] => .ok []
  | pn :: rest =>
    match dictGet test_parameters pn.1 with
    | none => .error pn.1
    | some v =>
      match id_parts test_parameters rest with
      | .error e => .error e
      | .ok parts => .ok ((pn.2 ++ "-" ++ pyStr v) :: parts)

def generate_test_id (short_names : List (String × String))
    (test_parameters : Dict) : Except String String :=
  match id_parts test_parameters short_names with
  | .error e => .error e
  | .ok parts => .ok (String.intercalate "," parts)

/-- One element of the test_bunches list.  The source receives a
List[Any]; get_list_of_tests asserts every element is a dict, so the
embedding keeps non-dict elements representable. -/
inductive BunchEntry where
  | mapping (d : Dict)
  | nonMapping (v : Val)
deriving Repr, DecidableEq

def BunchEntry.isMapping : BunchEntry → Bool
  | .mapping _ => true
  | .nonMapping _ => false

/-- State of an OTETestHelper instance: the deep-copied contract outputs
stored by __init__ plus the cache.  stages holds
test_case_class.get_list_of_test_stages(), the ordered stage list of the
external Case Object Contract. -/
structure Engine where
  test_bunches : List BunchEntry
  short_names_for_id : List (String × String)
  params_defining_behavior : List String
  default_test_parameters : List (String × Val)
  stages : List String
  cache : CacheState
deriving Repr, DecidableEq

/-- Lines 256-263 of the source: wrap a scalar model_name or dataset_name
into a one-element list, keep a list (or tuple) as is. -/
def normalize_names (v : Val) : List Val :=
  match v with
  | .list xs => xs
  | other => [other]

/-- Body of the innermost loop (lines 269-273): deepcopy the bunch,
overwrite test_stage, model_name and dataset_name, then fill defaults. -/
def make_test_parameters (e : Engine) (el : Dict) (m d : Val)
    (stage : String) : Dict :=
  let tp := dictSet el "test_stage" (.str stage)
  let tp := dictSet tp "model_name" m
  let tp := dictSet tp "dataset_name" d
  fill_test_parameters_default_values e.default_test_parameters tp

/-- Records contributed by one bunch dict: itertools.product of the
normalized model and dataset names (model-major), stage loop innermost. -/
def bunch_records (e : Engine) (el : Dict) : List Dict :=
  let model_names := normalize_names (pyGet el "model_name")
  let dataset_names := normalize_names (pyGet el "dataset_name")
  (model_names.flatMap (fun m => dataset_names.map (fun d => (m, d)))).flatMap
    (fun md => e.stages.map (fun stage => make_test_parameters e el md.1 md.2 stage))

/-- The dicts of the test_bunches list (meaningful once the dict assert of
line 245 has passed). -/
def bunch_dicts (e : Engine) : List Dict :=
  e.test_bunches.filterMap
    (fun b => match b with | .mapping d => some d | .nonMapping _ => none)

/-- Line 254: a bunch is kept when no usecase filter is given, or when its
usecase field (None when absent) equals the filter string. -/
def kept_bunches (e : Engine) (usecase : Option String) : List Dict :=
  (bunch_dicts e).filter
    (fun el =>
      match usecase with
      | none => true
      | some u => pyGet el "usecase" == Val.str u)

/-- All records appended to argvalues by one get_list_of_tests call, in
order: bunch order, then model x dataset order, then stage order. -/
def all_records (e : Engine) (usecase : Option String) : List Dict :=
  (kept_bunches e usecase).flatMap (bunch_records e)

/-- The triple returned by get_list_of_tests.  In the source argvalues
holds one-element tuples (test_parameters,); the record itself is kept
here. -/
structure GLResult where
  argnames : List String
  argvalues : List Dict
  ids : List String
deriving Repr, DecidableEq

/-- OTETestHelper.get_list_of_tests: assert every bunch element is a dict,
filter by usecase, expand each kept bunch into records, generate the id of
every record; a failed assert or a KeyError during id generation aborts
the call with no partial result.  The engine state is returned alongside:
no statement of the source assigns to self or to the cache. -/
def get_list_of_tests (e : Engine) (usecase : Option String) :
    Except String GLResult × Engine :=
  if e.test_bunches.all BunchEntry.isMapping then
    let records := all_records e usecase
    match records.mapM (generate_test_id e.short_names_for_id) with
    | .error k => (.error ("KeyError: " ++ k), e)
    | .ok ids => (.ok ⟨["test_parameters"], records, ids⟩, e)
  else
    (.error "AssertionError: a test_bunches element is not a dict", e)

instance {ε α : Type} [DecidableEq ε] [DecidableEq α] : DecidableEq (Except ε α) :=
  fun a b =>
    match a, b with
    | .error x, .error y => decidable_of_iff (x = y) (by simp)
    | .ok x, .ok y => decidable_of_iff (x = y) (by simp)
    | .error _, .ok _ => isFalse (by simp)
    | .ok _, .error _ => isFalse (by simp)

/-- The construction-time assert of lines 204-205 on the contract output
test_parameters_defining_test_case_behavior: a list whose elements are all
strings (an empty list passes). -/
def params_defining_behavior_assert_ok (v : Val) : Bool :=
  match v with
  | .list xs => xs.all (fun x => match x with | .str _ => true | _ => false)
  | _ => false

/-- Concrete inputs exercising the cache: two one-key parameter records
whose projections onto case_keys disagree. -/
def c1_keys : List String := ["model_name"]

def c1_tpA : Dict := [("model_name", .str "A")]

def c1_tpB : Dict := [("model_name", .str "B")]

/-- A cache state already holding an entry, for exercising the reuse path
after a failed construction. -/
def c2_cache : CacheState :=
  { cache_parameters := [("model_name", .str "A")], cached_value := some 7, next_id := 8 }

/-- The default id-naming map of the repository
(DEFAULT_SHORT_TEST_PARAMETERS_NAMES_FOR_GENERATING_ID, restricted to the
four keys the engine asserts). -/
def sample_id_map : List (String × String) :=
  [("test_stage", "ACTION"), ("model_name", "model"),
   ("dataset_name", "dataset"), ("usecase", "usecase")]

def sample_defaults : List (String × Val) :=
  [("num_iters", .int 1), ("batch_size", .int 2)]

def c3_bunch : Dict :=
  [("model_name", .list [.str "A", .str "B"]),
   ("dataset_name", .list [.str "X"]),
   ("usecase", .str "precommit")]

def c3_engine : Engine :=
  { test_bunches := [.mapping c3_bunch],
    short_names_for_id := sample_id_map,
    params_defining_behavior := ["model_name", "dataset_name"],
    default_test_parameters := sample_defaults,
    stages := ["train", "eval"],
    cache := CacheState.init }

/-- A bunch whose model_name normalizes to the empty sequence. -/
def c4_bunch : Dict :=
  [("model_name", .list []), ("dataset_name", .str "X"), ("usecase", .str "precommit")]

def c4_engine : Engine :=
  { c3_engine with test_bunches := [.mapping c4_bunch] }

/-- Two records that disagree on the id key model_name yet collide on the
generated TestId, because values may contain the comma and dash
separators. -/
def c5_r1 : Dict :=
  [("test_stage", .str "t"), ("model_name", .str "a,dataset-b"),
   ("dataset_name", .str "c"), ("usecase", .str "u")]

def c5_r2 : Dict :=
  [("test_stage", .str "t"), ("model_name", .str "a"),
   ("dataset_name", .str "b,dataset-c"), ("usecase", .str "u")]

/-- Records identical on every id-naming-map key, differing on the key
extra which the map does not mention. -/
def c5w_r1 : Dict :=
  [("test_stage", .str "train"), ("model_name", .str "A"),
   ("dataset_name", .str "X"), ("usecase", .str "u"), ("extra", .int 1)]

def c5w_r2 : Dict :=
  [("test_stage", .str "train"), ("model_name", .str "A"),
   ("dataset_name", .str "X"), ("usecase", .str "u"), ("extra", .int 2)]

/-- A record explicitly holding None for batch_size. -/
def c6_tp : Dict := [("batch_size", Val.vnone)]

/-- A record with an explicit non-sentinel num_iters and no batch_size. -/
def c6w_tp : Dict := [("num_iters", .int 5)]

/-- An engine whose bunch list holds a non-mapping entry. -/
def c4w_engine : Engine :=
  { c3_engine with test_bunches := [.nonMapping (.str "oops")] }

theorem dictGet_dictSet_self (d : Dict) (k : String) (v : Val) :
    dictGet (dictSet d k v) k = some v := by
  induction d with
  | nil => simp [dictGet, dictSet]
  | cons p rest ih =>
    obtain ⟨k1, v1⟩ := p
    by_cases h : k1 = k
    · subst h; simp [dictGet, dictSet]
    · simp [dictGet, dictSet, h, ih]

theorem dictGet_dictSet_other (d : Dict) (k1 k2 : String) (v : Val) (h : k1 ≠ k2) :
    dictGet (dictSet d k1 v) k2 = dictGet d k2 := by
  induction d with
  | nil => simp [dictGet, dictSet, h]
  | cons p rest ih =>
    obtain ⟨ka, va⟩ := p
    by_cases hk : ka = k1
    · subst hk; simp [dictGet, dictSet, h]
    · simp [dictGet, dictSet, hk, ih]

theorem pyGet_dictSet_self (d : Dict) (k : String) (v : Val) :
    pyGet (dictSet d k v) k = v := by
  simp [pyGet, dictGet_dictSet_self]

theorem pyGet_dictSet_other (d : Dict) (k1 k2 : String) (v : Val) (h : k1 ≠ k2) :
    pyGet (dictSet d k1 v) k2 = pyGet d k2 := by
  simp [pyGet, dictGet_dictSet_other d k1 k2 v h]

theorem dictGet_mem_keys (d : Dict) (k : String) (v : Val)
    (h : dictGet d k = some v) : k ∈ d.map Prod.fst := by
  induction d with
  | nil => simp [dictGet] at h
  | cons p rest ih =>
    by_cases hk : p.1 = k
    · simp [hk]
    · rw [dictGet, if_neg hk] at h
      exact List.mem_cons_of_mem _ (ih h)

/-- dictEqb is the extensional equality of the two partial maps, matching
the semantics of Python dict ==. -/
theorem dictEqb_iff (d1 d2 : Dict) :
    dictEqb d1 d2 = true ↔ ∀ k, dictGet d1 k = dictGet d2 k := by
  constructor
  · intro h k
    rw [dictEqb, Bool.and_eq_true, List.all_eq_true, List.all_eq_true] at h
    obtain ⟨ha, hb⟩ := h
    cases hg1 : dictGet d1 k with
    | some v =>
      obtain ⟨p, hp, hpk⟩ := List.mem_map.mp (dictGet_mem_keys d1 k v hg1)
      have := ha p hp
      rw [beq_iff_eq, hpk] at this
      rw [← this]
      exact hg1.symm
    | none =>
      cases hg2 : dictGet d2 k with
      | none => rfl
      | some w =>
        obtain ⟨p, hp, hpk⟩ := List.mem_map.mp (dictGet_mem_keys d2 k w hg2)
        have := hb p hp
        rw [beq_iff_eq, hpk] at this
        rw [← hg1, this, hg2]
  · intro h
    rw [dictEqb, Bool.and_eq_true, List.all_eq_true, List.all_eq_true]
    exact ⟨fun p _ => by rw [beq_iff_eq]; exact h p.1,
           fun p _ => by rw [beq_iff_eq]; exact h p.1⟩

/-- One step of the default-filling loop. -/
theorem fill_cons (kv : String × Val) (rest : List (String × Val)) (tp : Dict) :
    fill_test_parameters_default_values (kv :: rest) tp
      = fill_test_parameters_default_values rest
          (if pyGet tp kv.1 == Val.vnone
              || pyGet tp kv.1 == DEFAULT_FIELD_VALUE_FOR_USING_IN_TEST
           then dictSet tp kv.1 kv.2 else tp) := rfl

/-- Keys outside the configured defaults are never touched by the fill. -/
theorem fill_not_mem (defaults : List (String × Val)) (tp : Dict) (k : String)
    (h : k ∉ defaults.map Prod.fst) :
    pyGet (fill_test_parameters_default_values defaults tp) k = pyGet tp k := by
  induction defaults generalizing tp with
  | nil => rfl
  | cons kv rest ih =>
    have hk : kv.1 ≠ k := fun he => h (by simp [he])
    have hr : k ∉ rest.map Prod.fst := fun hm => h (by simp [hm])
    rw [fill_cons]
    by_cases hc : (pyGet tp kv.1 == Val.vnone
        || pyGet tp kv.1 == DEFAULT_FIELD_VALUE_FOR_USING_IN_TEST) = true
    · rw [if_pos hc, ih (dictSet tp kv.1 kv.2) hr, pyGet_dictSet_other tp kv.1 k kv.2 hk]
    · rw [if_neg hc, ih tp hr]

/-- A field whose current value is unset (absent or None, hence
pyGet = None, or the sentinel) receives the configured default. -/
theorem fill_sets (defaults : List (String × Val)) (tp : Dict) (k : String) (dv : Val)
    (hnd : (defaults.map Prod.fst).Nodup) (hmem : (k, dv) ∈ defaults)
    (hunset : pyGet tp k = Val.vnone
        ∨ pyGet tp k = DEFAULT_FIELD_VALUE_FOR_USING_IN_TEST) :
    pyGet (fill_test_parameters_default_values defaults tp) k = dv := by
  induction defaults generalizing tp with
  | nil => cases hmem
  | cons kv rest ih =>
    rw [List.map_cons, List.nodup_cons] at hnd
    rw [fill_cons]
    rcases List.mem_cons.mp hmem with heq | hrest
    · rw [← heq]
      have hcond : (pyGet tp (k, dv).1 == Val.vnone
          || pyGet tp (k, dv).1 == DEFAULT_FIELD_VALUE_FOR_USING_IN_TEST) = true := by
        rcases hunset with hu | hu <;> simp [hu]
      rw [if_pos hcond]
      have hk : k ∉ rest.map Prod.fst := by rw [← heq] at hnd; exact hnd.1
      rw [fill_not_mem rest _ k hk]
      exact pyGet_dictSet_self tp k dv
    · have hk1 : kv.1 ≠ k := by
        intro he
        exact hnd.1 (he ▸ List.mem_map.mpr ⟨(k, dv), hrest, rfl⟩)
      by_cases hc : (pyGet tp kv.1 == Val.vnone
          || pyGet tp kv.1 == DEFAULT_FIELD_VALUE_FOR_USING_IN_TEST) = true
      · rw [if_pos hc]
        exact ih (dictSet tp kv.1 kv.2) hnd.2 hrest
          (by rw [pyGet_dictSet_other tp kv.1 k kv.2 hk1]; exact hunset)
      · rw [if_neg hc]
        exact ih tp hnd.2 hrest hunset

/-- Keys whose current value is neither None nor the sentinel keep their
value through the fill. -/
theorem fill_keeps (defaults : List (String × Val)) (tp : Dict) (k : String)
    (h1 : pyGet tp k ≠ Val.vnone)
    (h2 : pyGet tp k ≠ DEFAULT_FIELD_VALUE_FOR_USING_IN_TEST) :
    pyGet (fill_test_parameters_default_values defaults tp) k = pyGet tp k := by
  induction defaults generalizing tp with
  | nil => rfl
  | cons kv rest ih =>
    rw [fill_cons]
    by_cases hk : kv.1 = k
    · have hcond : (pyGet tp kv.1 == Val.vnone
          || pyGet tp kv.1 == DEFAULT_FIELD_VALUE_FOR_USING_IN_TEST) = false := by
        subst hk
        simp only [Bool.or_eq_false_iff, beq_eq_false_iff_ne, ne_eq]
        exact ⟨h1, h2⟩
      rw [hcond]
      simp only [Bool.false_eq_true, if_false]
      exact ih tp h1 h2
    · by_cases hc : (pyGet tp kv.1 == Val.vnone
          || pyGet tp kv.1 == DEFAULT_FIELD_VALUE_FOR_USING_IN_TEST) = true
      · rw [if_pos hc]
        have hne : pyGet (dictSet tp kv.1 kv.2) k = pyGet tp k :=
          pyGet_dictSet_other tp kv.1 k kv.2 hk
        rw [ih (dictSet tp kv.1 kv.2) (by rw [hne]; exact h1) (by rw [hne]; exact h2), hne]
      · rw [if_neg hc]
        exact ih tp h1 h2

/-- When some projected key is absent from the record, the projection
raises a KeyError naming an absent configured key, whatever was already
accumulated. -/
theorem projectAux_error (tp : Dict) :
    ∀ (keys : List String) (acc : Dict) (k : String),
      k ∈ keys → dictGet tp k = none →
      ∃ k2, k2 ∈ keys ∧ dictGet tp k2 = none ∧ projectAux tp acc keys = .error k2 := by
  intro keys
  induction keys with
  | nil => intro acc k hk; cases hk
  | cons k1 rest ih =>
    intro acc k hk hmiss
    cases hg : dictGet tp k1 with
    | none =>
      refine ⟨k1, List.mem_cons_self k1 rest, hg, ?_⟩
      rw [projectAux, hg]
    | some v =>
      have hkr : k ∈ rest := by
        rcases List.mem_cons.mp hk with he | hr
        · rw [he, hg] at hmiss; cases hmiss
        · exact hr
      obtain ⟨k2, hk2, hm2, he2⟩ := ih (dictSet acc k1 v) k hkr hmiss
      refine ⟨k2, List.mem_cons_of_mem k1 hk2, hm2, ?_⟩
      rw [projectAux, hg]
      exact he2

/-- The generated id depends only on the values of the id-naming-map
keys. -/
theorem id_parts_congr (m : List (String × String)) (tp1 tp2 : Dict)
    (h : ∀ k ∈ m.map Prod.fst, dictGet tp1 k = dictGet tp2 k) :
    id_parts tp1 m = id_parts tp2 m := by
  induction m with
  | nil => rfl
  | cons pn rest ih =>
    have h1 : dictGet tp1 pn.1 = dictGet tp2 pn.1 := h pn.1 (by simp)
    have h2 : ∀ k ∈ rest.map Prod.fst, dictGet tp1 k = dictGet tp2 k :=
      fun k hk => h k (by simp [hk])
    rw [id_parts, id_parts, h1, ih h2]

/-- get_list_of_tests never assigns to the helper state: the returned
engine is the argument itself, in every branch. -/
theorem get_list_of_tests_frame (e : Engine) (u : Option String) :
    (get_list_of_tests e u).2 = e := by
  unfold get_list_of_tests
  split
  · dsimp only
    split <;> rfl
  · rfl

/-- After the inner loop builds a record, the three overwritten fields
read back as the pair and stage of the current iteration, provided the
written values are neither None nor the sentinel (the fill step never
rewrites such values). -/
theorem make_test_parameters_proj (e : Engine) (el : Dict) (m d : Val) (stage : String)
    (hm1 : m ≠ Val.vnone) (hm2 : m ≠ DEFAULT_FIELD_VALUE_FOR_USING_IN_TEST)
    (hd1 : d ≠ Val.vnone) (hd2 : d ≠ DEFAULT_FIELD_VALUE_FOR_USING_IN_TEST)
    (hs2 : Val.str stage ≠ DEFAULT_FIELD_VALUE_FOR_USING_IN_TEST) :
    pyGet (make_test_parameters e el m d stage) "model_name" = m ∧
    pyGet (make_test_parameters e el m d stage) "dataset_name" = d ∧
    pyGet (make_test_parameters e el m d stage) "test_stage" = Val.str stage := by
  have hrw : make_test_parameters e el m d stage
      = fill_test_parameters_default_values e.default_test_parameters
          (dictSet (dictSet (dictSet el "test_stage" (Val.str stage))
            "model_name" m) "dataset_name" d) := rfl
  have hgm : pyGet (dictSet (dictSet (dictSet el "test_stage" (Val.str stage))
      "model_name" m) "dataset_name" d) "model_name" = m := by
    rw [pyGet_dictSet_other _ "dataset_name" "model_name" d (by decide),
        pyGet_dictSet_self]
  have hgd : pyGet (dictSet (dictSet (dictSet el "test_stage" (Val.str stage))
      "model_name" m) "dataset_name" d) "dataset_name" = d :=
    pyGet_dictSet_self _ "dataset_name" d
  have hgs : pyGet (dictSet (dictSet (dictSet el "test_stage" (Val.str stage))
      "model_name" m) "dataset_name" d) "test_stage" = Val.str stage := by
    rw [pyGet_dictSet_other _ "dataset_name" "test_stage" d (by decide),
        pyGet_dictSet_other _ "model_name" "test_stage" m (by decide),
        pyGet_dictSet_self]
  refine ⟨?_, ?_, ?_⟩
  · rw [hrw, fill_keeps _ _ _ (by rw [hgm]; exact hm1) (by rw [hgm]; exact hm2), hgm]
  · rw [hrw, fill_keeps _ _ _ (by rw [hgd]; exact hd1) (by rw [hgd]; exact hd2), hgd]
  · rw [hrw, fill_keeps _ _ _ (by rw [hgs]; simp) (by rw [hgs]; exact hs2), hgs]

/-- C9: an empty parameters-defining-case-behavior list passes the
construction-time assert, and the first get_case call on a freshly
constructed engine projects the empty mapping, which equals the initial
cache key, so the call takes the reuse path and returns None (the initial
cached value) without constructing: the state (construction counter
included) is returned unchanged. -/
theorem claim_C9 :
    params_defining_behavior_assert_ok (Val.list []) = true ∧
    ∀ (tp : Dict) (b : Bool),
      get_test_case [] b CacheState.init tp = .ok none CacheState.init := by
  refine ⟨rfl, fun tp b => ?_⟩
  rfl

/-- C2: when the projection succeeds but differs from the cached key, a
raising CaseObject constructor propagates with the cache state unchanged,
and a subsequent call whose projection matches the previously cached key
still takes the reuse path and returns the previously cached object with
no construction. -/
theorem claim_C2 (keys : List String) (st : CacheState) (tp tp2 pdc pdc2 : Dict)
    (h1 : projectParams tp keys = .ok pdc)
    (h2 : has_same_params st pdc = false)
    (h3 : projectParams tp2 keys = .ok pdc2)
    (h4 : has_same_params st pdc2 = true) :
    get_test_case keys false st tp = .ctorError st ∧
    ∀ b : Bool, get_test_case keys b st tp2 = .ok st.cached_value st := by
  constructor
  · simp only [get_test_case, h1, h2]
    rfl
  · intro b
    simp only [get_test_case, h3, h4]
    rfl

/-- C2 witness: with keys [model_name] and a cache holding the projection
of record A, a raising construction for record B leaves the state intact
and record A still hits the reuse path afterwards. -/
theorem claim_C2_witness :
    get_test_case c1_keys false c2_cache c1_tpB = .ctorError c2_cache ∧
    ∀ b : Bool, get_test_case c1_keys b c2_cache c1_tpA = .ok c2_cache.cached_value c2_cache :=
  claim_C2 c1_keys c2_cache c1_tpB c1_tpA
    [("model_name", Val.str "B")] [("model_name", Val.str "A")] rfl rfl rfl rfl

/-- C10: a get_case call whose record lacks one of the configured
case-behavior keys fails with a KeyError naming an absent configured key,
raised while deriving the CaseIdentityKey: no construction happens and the
cache state (key, value, construction counter) is unchanged. -/
theorem claim_C10 (keys : List String) (st : CacheState) (tp : Dict) (b : Bool)
    (k : String) (hk : k ∈ keys) (hmiss : dictGet tp k = none) :
    ∃ k2, k2 ∈ keys ∧ dictGet tp k2 = none ∧
      get_test_case keys b st tp = .keyError k2 st := by
  obtain ⟨k2, hk2, hm2, he2⟩ := projectAux_error tp keys [] k hk hmiss
  refine ⟨k2, hk2, hm2, ?_⟩
  simp only [get_test_case, projectParams, he2]

/-- C10 witness: a record lacking dataset_name makes the call raise a
KeyError with the cache untouched. -/
theorem claim_C10_witness :
    ∃ k2, k2 ∈ ["model_name", "dataset_name"] ∧ dictGet c1_tpA k2 = none ∧
      get_test_case ["model_name", "dataset_name"] true c2_cache c1_tpA
        = .keyError k2 c2_cache :=
  claim_C10 ["model_name", "dataset_name"] c2_cache c1_tpA true
    "dataset_name" (by decide) rfl

/-- C8: get_list_of_tests is pure with respect to the engine state: the
stored bunches, naming map, defaults and cache are unchanged, and a
repeated call on the post state with the same usecase returns the same
triple. -/
theorem claim_C8 (e : Engine) (u : Option String) :
    (get_list_of_tests e u).2 = e ∧
    (get_list_of_tests e u).2.test_bunches = e.test_bunches ∧
    (get_list_of_tests e u).2.short_names_for_id = e.short_names_for_id ∧
    (get_list_of_tests e u).2.default_test_parameters = e.default_test_parameters ∧
    (get_list_of_tests e u).2.cache = e.cache ∧
    (get_list_of_tests (get_list_of_tests e u).2 u).1 = (get_list_of_tests e u).1 := by
  have hf : (get_list_of_tests e u).2 = e := get_list_of_tests_frame e u
  refine ⟨hf, ?_, ?_, ?_, ?_, ?_⟩ <;> rw [hf]

/-- C5 counterexample: the records c5_r1 and c5_r2 differ in the value of
the id-naming-map key model_name, yet their generated TestId strings are
equal, because values may contain the comma and dash separators; the claim
that differing id-key values imply different TestId strings is false. -/
theorem claim_C5_counterexample :
    "model_name" ∈ sample_id_map.map Prod.fst ∧
    dictGet c5_r1 "model_name" ≠ dictGet c5_r2 "model_name" ∧
    generate_test_id sample_id_map c5_r1 = generate_test_id sample_id_map c5_r2 :=
  ⟨by decide, by decide, rfl⟩

/-- C5 as amended: the TestId is a deterministic function of the values of
the id-naming-map keys: two records identical on all id-naming-map keys
produce identical TestId strings, even when they differ on non-id keys
(injectivity in the other direction does not hold). -/
theorem claim_C5_amended (m : List (String × String)) (tp1 tp2 : Dict)
    (h : ∀ k ∈ m.map Prod.fst, dictGet tp1 k = dictGet tp2 k) :
    generate_test_id m tp1 = generate_test_id m tp2 := by
  rw [generate_test_id, generate_test_id, id_parts_congr m tp1 tp2 h]

/-- C5 witness: two records differing only on the non-id key extra get the
same TestId. -/
theorem claim_C5_witness :
    generate_test_id sample_id_map c5w_r1 = generate_test_id sample_id_map c5w_r2 :=
  claim_C5_amended sample_id_map c5w_r1 c5w_r2 (by decide)

/-- C6 counterexample: a record holding the explicit value None for
batch_size — a value distinct from the unset sentinel — does not keep it:
the fill replaces it with the default, because the source tests
test_parameters.get(key) is None, which conflates an absent key with a
stored None. -/
theorem claim_C6_counterexample :
    Val.vnone ≠ DEFAULT_FIELD_VALUE_FOR_USING_IN_TEST ∧
    pyGet c6_tp "batch_size" = Val.vnone ∧
    pyGet (fill_test_parameters_default_values sample_defaults c6_tp) "batch_size"
      = Val.int 2 := by
  decide

/-- C6 as amended: during the fill, a default key whose current value is
unset — the key absent, the stored value None, or the stored value equal
to the unset sentinel — receives the default value of the contract; a key
holding any other explicit value keeps it. -/
theorem claim_C6_amended (defaults : List (String × Val)) (tp : Dict)
    (k : String) (dv : Val)
    (hnd : (defaults.map Prod.fst).Nodup) (hmem : (k, dv) ∈ defaults) :
    ((pyGet tp k = Val.vnone ∨ pyGet tp k = DEFAULT_FIELD_VALUE_FOR_USING_IN_TEST) →
        pyGet (fill_test_parameters_default_values defaults tp) k = dv) ∧
    (pyGet tp k ≠ Val.vnone → pyGet tp k ≠ DEFAULT_FIELD_VALUE_FOR_USING_IN_TEST →
        pyGet (fill_test_parameters_default_values defaults tp) k = pyGet tp k) :=
  ⟨fun h => fill_sets defaults tp k dv hnd hmem h,
   fun h1 h2 => fill_keeps defaults tp k h1 h2⟩

/-- C6 witness: with the default contract, a record lacking batch_size
receives the default 2 while its explicit num_iters value is kept. -/
theorem claim_C6_witness :
    pyGet (fill_test_parameters_default_values sample_defaults c6w_tp) "batch_size"
      = Val.int 2 ∧
    pyGet (fill_test_parameters_default_values sample_defaults c6w_tp) "num_iters"
      = pyGet c6w_tp "num_iters" :=
  ⟨(claim_C6_amended sample_defaults c6w_tp "batch_size" (Val.int 2)
      (by decide) (by decide)).1 (Or.inl rfl),
   (claim_C6_amended sample_defaults c6w_tp "num_iters" (Val.int 1)
      (by decide) (by decide)).2 (by decide) (by decide)⟩

/-- C4 counterexample: a bunch whose model_name normalizes to the empty
sequence does not make get_list_of_tests fail: the call succeeds and the
bunch simply contributes zero records, refuting the claimed
empty-sequence error. -/
theorem claim_C4_counterexample :
    dictGet c4_bunch "model_name" = some (Val.list []) ∧
    (get_list_of_tests c4_engine none).1
      = .ok { argnames := ["test_parameters"], argvalues := [], ids := [] } :=
  ⟨rfl, rfl⟩

/-- C4 as amended: a non-mapping bunch entry makes get_list_of_tests fail
with the assertion error and no partial result; a bunch whose normalized
model-name or dataset-name sequence is empty causes no error — it merely
contributes zero records to the output. -/
theorem claim_C4_amended :
    (∀ (e : Engine) (u : Option String) (b : BunchEntry),
        b ∈ e.test_bunches → b.isMapping = false →
        (get_list_of_tests e u).1
          = .error "AssertionError: a test_bunches element is not a dict") ∧
    (∀ (e : Engine) (el : Dict),
        dictGet el "model_name" = some (Val.list [])
          ∨ dictGet el "dataset_name" = some (Val.list []) →
        bunch_records e el = []) := by
  constructor
  · intro e u b hmem hfalse
    have hall : ¬ e.test_bunches.all BunchEntry.isMapping = true := by
      intro hc
      rw [List.all_eq_true.mp hc b hmem] at hfalse
      cases hfalse
    unfold get_list_of_tests
    rw [if_neg hall]
  · intro e el h
    rcases h with hm | hd
    · have hpm : pyGet el "model_name" = Val.list [] := by rw [pyGet, hm]; rfl
      rw [bunch_records, hpm]
      rfl
    · have hpd : pyGet el "dataset_name" = Val.list [] := by rw [pyGet, hd]; rfl
      rw [bunch_records, hpd]
      simp [normalize_names]

/-- C4 witness: an engine with a non-mapping (string) bunch entry fails
with the assertion error, and the empty-model-list bunch expands to no
records. -/
theorem claim_C4_witness :
    (get_list_of_tests c4w_engine none).1
      = .error "AssertionError: a test_bunches element is not a dict" ∧
    bunch_records c4_engine c4_bunch = [] :=
  ⟨claim_C4_amended.1 c4w_engine none (.nonMapping (.str "oops")) (by decide) rfl,
   claim_C4_amended.2 c4_engine c4_bunch (Or.inl rfl)⟩

/-- C3: a bunch with model_name [A, B] and dataset_name [X], on a case
class with stages [train, eval], expands to exactly 4 records in the
order (A,X,train), (A,X,eval), (B,X,train), (B,X,eval): the model loop is
outermost, the dataset loop inside it and the stage loop innermost, and
when the bunch is the only one, the argvalues records of a call with no
filter are exactly these, in this order. -/
theorem claim_C3 (e : Engine) (el : Dict)
    (hst : e.stages = ["train", "eval"])
    (hm : dictGet el "model_name" = some (.list [.str "A", .str "B"]))
    (hd : dictGet el "dataset_name" = some (.list [.str "X"]))
    (htb : e.test_bunches = [.mapping el]) :
    all_records e none = bunch_records e el ∧
    (bunch_records e el).length = 4 ∧
    (bunch_records e el).map
        (fun r => (pyGet r "model_name", pyGet r "dataset_name", pyGet r "test_stage"))
      = [(.str "A", .str "X", .str "train"), (.str "A", .str "X", .str "eval"),
         (.str "B", .str "X", .str "train"), (.str "B", .str "X", .str "eval")] := by
  have hpm : pyGet el "model_name" = Val.list [.str "A", .str "B"] := by
    rw [pyGet, hm]; rfl
  have hpd : pyGet el "dataset_name" = Val.list [.str "X"] := by
    rw [pyGet, hd]; rfl
  have hbr : bunch_records e el
      = [make_test_parameters e el (.str "A") (.str "X") "train",
         make_test_parameters e el (.str "A") (.str "X") "eval",
         make_test_parameters e el (.str "B") (.str "X") "train",
         make_test_parameters e el (.str "B") (.str "X") "eval"] := by
    rw [bunch_records, hpm, hpd, hst]
    rfl
  have pAt := make_test_parameters_proj e el (.str "A") (.str "X") "train"
    (by decide) (by decide) (by decide) (by decide) (by decide)
  have pAe := make_test_parameters_proj e el (.str "A") (.str "X") "eval"
    (by decide) (by decide) (by decide) (by decide) (by decide)
  have pBt := make_test_parameters_proj e el (.str "B") (.str "X") "train"
    (by decide) (by decide) (by decide) (by decide) (by decide)
  have pBe := make_test_parameters_proj e el (.str "B") (.str "X") "eval"
    (by decide) (by decide) (by decide) (by decide) (by decide)
  refine ⟨?_, ?_, ?_⟩
  · rw [all_records, kept_bunches, bunch_dicts, htb]
    simp
  · rw [hbr]; rfl
  · rw [hbr]
    simp only [List.map_cons, List.map_nil]
    rw [pAt.1, pAt.2.1, pAt.2.2, pAe.1, pAe.2.1, pAe.2.2,
        pBt.1, pBt.2.1, pBt.2.2, pBe.1, pBe.2.1, pBe.2.2]

/-- C3 witness: the concrete engine c3_engine with the single bunch
c3_bunch produces exactly the four records in the claimed order. -/
theorem claim_C3_witness :
    all_records c3_engine none = bunch_records c3_engine c3_bunch ∧
    (bunch_records c3_engine c3_bunch).length = 4 ∧
    (bunch_records c3_engine c3_bunch).map
        (fun r => (pyGet r "model_name", pyGet r "dataset_name", pyGet r "test_stage"))
      = [(.str "A", .str "X", .str "train"), (.str "A", .str "X", .str "eval"),
         (.str "B", .str "X", .str "train"), (.str "B", .str "X", .str "eval")] :=
  claim_C3 c3_engine c3_bunch rfl rfl rfl rfl

/-- C7: a record appears in the expansion filtered by usecase u exactly
when it comes from a bunch whose usecase field equals u, and — when every
bunch carries a string usecase value — the unfiltered expansion holds
exactly the records produced over all usecase values u. -/
theorem claim_C7 (e : Engine) (u : String) :
    (∀ r : Dict,
        r ∈ all_records e (some u) ↔
          ∃ el, el ∈ bunch_dicts e ∧ pyGet el "usecase" = Val.str u
            ∧ r ∈ bunch_records e el) ∧
    ((bunch_dicts e).all
        (fun el => match pyGet el "usecase" with | .str _ => true | _ => false) = true →
      ∀ r : Dict,
        (r ∈ all_records e none ↔ ∃ u2 : String, r ∈ all_records e (some u2))) := by
  have key : ∀ (u2 : String) (r : Dict),
      r ∈ all_records e (some u2) ↔
        ∃ el, el ∈ bunch_dicts e ∧ pyGet el "usecase" = Val.str u2
          ∧ r ∈ bunch_records e el := by
    intro u2 r
    rw [all_records, List.mem_flatMap]
    constructor
    · rintro ⟨el, hel, hr⟩
      rw [kept_bunches, List.mem_filter] at hel
      refine ⟨el, hel.1, ?_, hr⟩
      have := hel.2
      rw [beq_iff_eq] at this
      exact this
    · rintro ⟨el, hel, hu, hr⟩
      refine ⟨el, ?_, hr⟩
      rw [kept_bunches, List.mem_filter]
      exact ⟨hel, by rw [hu]; simp⟩
  have hnone : ∀ r : Dict,
      r ∈ all_records e none ↔ ∃ el, el ∈ bunch_dicts e ∧ r ∈ bunch_records e el := by
    intro r
    rw [all_records, List.mem_flatMap]
    have : kept_bunches e none = bunch_dicts e := by
      rw [kept_bunches]
      exact List.filter_true (bunch_dicts e)
    rw [this]
  refine ⟨key u, ?_⟩
  intro hall r
  constructor
  · intro hr
    obtain ⟨el, hel, hrel⟩ := (hnone r).mp hr
    have hval := List.all_eq_true.mp hall el hel
    cases hpe : pyGet el "usecase" with
    | str s => exact ⟨s, (key s r).mpr ⟨el, hel, hpe, hrel⟩⟩
    | int n => rw [hpe] at hval; cases hval
    | vnone => rw [hpe] at hval; cases hval
    | list xs => rw [hpe] at hval; cases hval
  · rintro ⟨u2, hr⟩
    obtain ⟨el, hel, _, hrel⟩ := (key u2 r).mp hr
    exact (hnone r).mpr ⟨el, hel, hrel⟩

/-- C7 witness: instantiation at the engine c3_engine, whose single bunch
has the usecase precommit. -/
theorem claim_C7_witness :
    (c1_tpA ∈ all_records c3_engine (some "precommit") ↔
      ∃ el, el ∈ bunch_dicts c3_engine ∧ pyGet el "usecase" = Val.str "precommit"
        ∧ c1_tpA ∈ bunch_records c3_engine el) ∧
    (c1_tpA ∈ all_records c3_engine none ↔
      ∃ u2 : String, c1_tpA ∈ all_records c3_engine (some u2)) :=
  ⟨(claim_C7 c3_engine "precommit").1 c1_tpA,
   (claim_C7 c3_engine "precommit").2 (by decide) c1_tpA⟩

/-- C1 counterexample: a fresh engine run on four calls whose
CaseIdentityKey sequence is [kA, kA, kB, kA] with kA and kB distinct makes
3 CaseObject constructions (the counter goes from 0 to 3), not 2: the
claim that exactly 2 constructions occur in the four calls is false on the
code (its own fourth-call clause already requires a third construction). -/
theorem claim_C1_counterexample :
    projectParams c1_tpA c1_keys = .ok [("model_name", Val.str "A")] ∧
    projectParams c1_tpB c1_keys = .ok [("model_name", Val.str "B")] ∧
    dictEqb [("model_name", Val.str "A")] [("model_name", Val.str "B")] = false ∧
    (runCalls c1_keys CacheState.init [c1_tpA, c1_tpA, c1_tpB, c1_tpA]).1
      = [some 0, some 0, some 1, some 2] ∧
    (runCalls c1_keys CacheState.init [c1_tpA, c1_tpA, c1_tpB, c1_tpA]).2.next_id
      = 3 ∧
    (3 : Nat) ≠ 2 := by
  decide

/-- C1 as amended: on a key sequence [k1, k1, k2, k1] (k1 and k2 distinct,
k1 distinct from the initially cached key), exactly 3 constructions occur
— at the first call, at the k2 call and at the fourth call; the second
call returns the object of the first call with no construction, and the
fourth call returns a fresh object, not the object built at the first
call, because the single cache slot was overwritten by k2: reuse is
last-key-only, not a general memo. -/
theorem claim_C1_amended (keys : List String) (st : CacheState)
    (tp1 tp2 tp3 tp4 p1 p2 p3 p4 : Dict)
    (h1 : projectParams tp1 keys = .ok p1)
    (h2 : projectParams tp2 keys = .ok p2)
    (h3 : projectParams tp3 keys = .ok p3)
    (h4 : projectParams tp4 keys = .ok p4)
    (h0 : has_same_params st p1 = false)
    (h12 : dictEqb p1 p2 = true)
    (h13 : dictEqb p1 p3 = false)
    (h14 : dictEqb p1 p4 = true) :
    runCalls keys st [tp1, tp2, tp3, tp4]
      = ([some st.next_id, some st.next_id,
          some (st.next_id + 1), some (st.next_id + 2)],
         { cache_parameters := p4, cached_value := some (st.next_id + 2),
           next_id := st.next_id + 3 }) ∧
    some (st.next_id + 2) ≠ some st.next_id := by
  have h34 : dictEqb p3 p4 = false := by
    cases hc : dictEqb p3 p4 with
    | false => rfl
    | true =>
      have e34 := (dictEqb_iff p3 p4).mp hc
      have e14 := (dictEqb_iff p1 p4).mp h14
      have : dictEqb p1 p3 = true :=
        (dictEqb_iff p1 p3).mpr (fun k => (e14 k).trans (e34 k).symm)
      rw [this] at h13
      cases h13
  have e1 : get_test_case keys true st tp1
      = .ok (some st.next_id) ⟨p1, some st.next_id, st.next_id + 1⟩ := by
    simp only [get_test_case, h1, h0]
    rfl
  have e2 : get_test_case keys true ⟨p1, some st.next_id, st.next_id + 1⟩ tp2
      = .ok (some st.next_id) ⟨p1, some st.next_id, st.next_id + 1⟩ := by
    simp only [get_test_case, h2, has_same_params, h12]
    rfl
  have e3 : get_test_case keys true ⟨p1, some st.next_id, st.next_id + 1⟩ tp3
      = .ok (some (st.next_id + 1)) ⟨p3, some (st.next_id + 1), st.next_id + 2⟩ := by
    simp only [get_test_case, h3, has_same_params, h13]
    rfl
  have e4 : get_test_case keys true ⟨p3, some (st.next_id + 1), st.next_id + 2⟩ tp4
      = .ok (some (st.next_id + 2)) ⟨p4, some (st.next_id + 2), st.next_id + 3⟩ := by
    simp only [get_test_case, h4, has_same_params, h34]
    rfl
  refine ⟨?_, by simp⟩
  simp only [runCalls, e1, e2, e3, e4]

/-- C1 witness: the amended statement at the concrete run of the
counterexample inputs. -/
theorem claim_C1_witness :
    runCalls c1_keys CacheState.init [c1_tpA, c1_tpA, c1_tpB, c1_tpA]
      = ([some 0, some 0, some 1, some 2],
         { cache_parameters := [("model_name", Val.str "A")],
           cached_value := some 2, next_id := 3 }) ∧
    some (0 + 2) ≠ some (0 : Nat) :=
  claim_C1_amended c1_keys CacheState.init c1_tpA c1_tpA c1_tpB c1_tpA
    [("model_name", Val.str "A")] [("model_name", Val.str "A")]
    [("model_name", Val.str "B")] [("model_name", Val.str "A")]
    rfl rfl rfl rfl rfl rfl rfl rfl

end OteHelper
